import Mathlib

/-!
Verification of `wandb-gcp-sync.py`: a script that polls WandB for a user's
running runs and appends newly observed ones as rows to a Google Sheet.

The script's pure run-diffing / row-building core (`get_timestamp`,
`get_run_value`, `process_runs`), its config loader (`load_config`), the
worksheet-limit eviction and worksheet-selection parts of `init_sheet`, the
writer (`sync_data`), and the scheduler loop are shallowly embedded below.
External I/O (file reads, spreadsheet API calls) is made explicit: file
contents, worksheet lists and sheet values are passed as arguments, and
remote calls are recorded in the return value.
-/

/-- A Python value as it occurs in a run's `config` / `summary` mappings.
`float` carries the value's shortest round-trip decimal representation,
which is exactly what Python's `str()` prints for it. -/
inductive PyVal where
  | str : String → PyVal
  | int : Int → PyVal
  | float : String → PyVal
deriving DecidableEq, Repr

/-- Python `str()` on a `PyVal`.  `str` of an int prints its decimal form
(with a leading `-` when negative), matching `toString` on `Int`. -/
def pyStr : PyVal → String
  | .str s => s
  | .int n => toString n
  | .float r => r

/-- A WandB run as read by the script: `run.id`, `run.state`,
`run.user.name`, and the `config` and `summary` mappings (Python dicts,
modelled as association lists with unique keys; `lookup` is dict access). -/
structure Run where
  id : String
  state : String
  userName : String
  config : List (String × PyVal)
  summary : List (String × PyVal)
deriving DecidableEq, Repr

/-- Two-digit zero-padded decimal, as `strftime` prints `%m %d %H %M %S`. -/
def pad2 (n : Nat) : String :=
  if n < 10 then "0" ++ toString n else toString n

/-- Four-digit zero-padded decimal, as `strftime` prints `%Y` (years in
`datetime`'s range are positive). -/
def pad4 (n : Nat) : String :=
  if n < 10 then "000" ++ toString n
  else if n < 100 then "00" ++ toString n
  else if n < 1000 then "0" ++ toString n
  else toString n

/-- Civil date from a count of days since 1970-01-01 (proleptic Gregorian),
the standard `civil_from_days` algorithm; returns `(year, month, day)`. -/
def civilFromDays (days : Int) : Int × Nat × Nat :=
  let z : Int := days + 719468
  let era : Int := Int.fdiv z 146097
  let doe : Nat := (z - era * 146097).toNat
  let yoe : Nat := (doe - doe / 1460 + doe / 36524 - doe / 146096) / 365
  let y : Int := (yoe : Int) + era * 400
  let doy : Nat := doe - (365 * yoe + yoe / 4 - yoe / 100)
  let mp : Nat := (5 * doy + 2) / 153
  let d : Nat := doy - (153 * mp + 2) / 5 + 1
  let m : Nat := if mp < 10 then mp + 3 else mp - 9
  (if m ≤ 2 then y + 1 else y, m, d)

/-- `datetime.fromtimestamp(t).strftime("%Y-%m-%d %H:%M:%S")` for an
integral epoch second count `t` already shifted into local time.  (Python's
`fromtimestamp` converts to *local* time; callers below pass the UTC epoch
plus an explicit local-timezone offset.) -/
def formatEpoch (t : Int) : String :=
  let days : Int := Int.fdiv t 86400
  let sod : Nat := (t - days * 86400).toNat
  let ymd := civilFromDays days
  pad4 ymd.1.toNat ++ "-" ++ pad2 ymd.2.1 ++ "-" ++ pad2 ymd.2.2 ++ " " ++
    pad2 (sod / 3600) ++ ":" ++ pad2 (sod % 3600 / 60) ++ ":" ++ pad2 (sod % 60)

/-- `get_timestamp` (lines 148-155): formats `run.summary["_timestamp"]`, or
returns `""` when the key is absent.  `tzOffset` is the local timezone's
offset from UTC in seconds, which `datetime.fromtimestamp` applies.  A
non-numeric `_timestamp` makes `fromtimestamp` raise; the `except` clause
turns that into `""`.  (Float-valued epochs are not exercised by any claim
and are not modelled.) -/
def get_timestamp (tzOffset : Int) (run : Run) : String :=
  match run.summary.lookup "_timestamp" with
  | some (.int t) => formatEpoch (t + tzOffset)
  | some _ => ""
  | none => ""

/-- `get_run_value` (lines 158-167): the run's config value for `key` if
present, else its summary value, else `""`, stringified. -/
def get_run_value (run : Run) (key : String) : String :=
  match run.config.lookup key with
  | some v => pyStr v
  | none =>
    match run.summary.lookup key with
    | some v => pyStr v
    | none => ""

/-- The row built for one qualifying run (lines 179-187):
`[run.id, get_timestamp(run), run.user.name]` followed by
`get_run_value(run, key)` for every header beyond the first three. -/
def buildRow (tzOffset : Int) (final_headers : List String) (run : Run) :
    List String :=
  [run.id, get_timestamp tzOffset run, run.userName] ++
    (final_headers.drop 3).map (get_run_value run)

/-- `process_runs` (lines 170-193), mirroring the loop's nested conditions:
`run.state == "running" and run.id not in run_id_list`, then
`run.user.name == user_name`.  Row construction in the pure embedding
cannot raise, so the per-run `try/except` is the identity here. -/
def process_runs (tzOffset : Int) (runs : List Run) (run_id_list : List String)
    (final_headers : List String) (user_name : String) : List (List String) :=
  match runs with
  | [] => []
  | run :: rest =>
    if run.state == "running" && !(run_id_list.contains run.id) then
      if run.userName == user_name then
        buildRow tzOffset final_headers run ::
          process_runs tzOffset rest run_id_list final_headers user_name
      else
        process_runs tzOffset rest run_id_list final_headers user_name
    else
      process_runs tzOffset rest run_id_list final_headers user_name

/-- The qualification test of `process_runs`, as one boolean. -/
def qualifies (run_id_list : List String) (user_name : String) (run : Run) :
    Bool :=
  run.state == "running" && !(run_id_list.contains run.id) &&
    run.userName == user_name

/-- The exceptions the script raises or lets escape: its two declared
classes `ConfigError` and `SheetError`, plus Python built-ins that escape
uncaught (`KeyError` from a dict subscript, `ValueError` from `min()` on an
empty sequence). -/
inductive PyExc where
  | configError : String → PyExc
  | sheetError : String → PyExc
  | keyError : String → PyExc
  | valueError : String → PyExc
deriving DecidableEq, Repr

/-- A value in the parsed `CONFIG.json` mapping. -/
inductive CfgVal where
  | str : String → CfgVal
  | strList : List String → CfgVal
deriving DecidableEq, Repr

/-- The parsed configuration mapping (a JSON object, keys unique). -/
abbrev Config := List (String × CfgVal)

/-- Outcome of opening and JSON-parsing the config file, made explicit:
the file may be absent (`FileNotFoundError`), malformed
(`json.JSONDecodeError`), or parse to a mapping. -/
inductive ReadFile where
  | notFound
  | badJson
  | parsed : Config → ReadFile

/-- `load_config` (lines 47-67).  It checks only `GCP_JSON` and
`FIXED_HEADERS` in `required_keys`; it then evaluates
`config['TEAM_NAME'], config['PROJECT_NAME']`, where a missing key raises
`KeyError` — the surrounding `except ConfigError` clause cannot catch a
`KeyError`, so it escapes as-is (and the outer handlers catch only
`FileNotFoundError` / `JSONDecodeError`). -/
def load_config (file : ReadFile) : Except PyExc Config :=
  match file with
  | .notFound => .error (.configError "Config file not found")
  | .badJson => .error (.configError "Invalid JSON in config file")
  | .parsed config =>
    let required_keys := ["GCP_JSON", "FIXED_HEADERS"]
    let missing_keys := required_keys.filter fun key => (config.lookup key).isNone
    if missing_keys ≠ [] then
      .error (.configError "Missing required keys in config")
    else
      match config.lookup "TEAM_NAME" with
      | none => .error (.keyError "TEAM_NAME")
      | some _ =>
        match config.lookup "PROJECT_NAME" with
        | none => .error (.keyError "PROJECT_NAME")
        | some _ => .ok config

/-- A worksheet tab as seen by the eviction code: its title, plus the
sheet id that identifies the tab the `.delete()` call removes. -/
structure Worksheet where
  title : String
  wsId : Nat
deriving DecidableEq, Repr

/-- Whether `pat` is an initial segment of the char list. -/
def startsWithChars : List Char → List Char → Bool
  | [], _ => true
  | _ :: _, [] => false
  | p :: ps, c :: cs => p == c && startsWithChars ps cs

/-- Python's `s.startswith(pat)`: `pat` is an initial segment of `s`. -/
def pyStartsWith (s pat : String) : Bool :=
  startsWithChars pat.data s.data

/-- Python's `min(xs, key=lambda x: x.title)` on a list: the first element
with the smallest title (later elements replace the accumulator only when
strictly smaller); `none` for the empty list, where Python raises
`ValueError`. -/
def pyMinByTitle (ws : List Worksheet) : Option Worksheet :=
  match ws with
  | [] => none
  | w :: rest =>
    some (rest.foldl (fun acc x => if x.title < acc.title then x else acc) w)

/-- The sheet-count-limit check of `init_sheet` (lines 109-117): with 100
or more worksheets, delete the `min`-by-title worksheet among those whose
title does not start with `"runs_"`.  Returns the worksheet the single
`.delete()` call removed, if any.  When every title starts with `"runs_"`,
`min()` receives an empty generator and raises `ValueError`, which the
outer `except Exception` handler (line 143) re-raises as a `SheetError`. -/
def enforce_sheet_limit (worksheets : List Worksheet) :
    Except PyExc (Option Worksheet) :=
  if worksheets.length ≥ 100 then
    match pyMinByTitle (worksheets.filter fun s => !(pyStartsWith s.title "runs_")) with
    | none =>
      .error (.sheetError
        "Failed to initialize sheet: min() arg is an empty sequence")
    | some oldest => .ok (some oldest)
  else
    .ok none

/-- The default worksheet (`spreadsheet.sheet1`) as the selection code
reads it: `get_all_values()`, `row_count`, `col_count`.  `row_values(1)`
is the first row of the values grid. -/
structure Sheet1 where
  values : List (List String)
  row_count : Nat
  col_count : Nat
deriving DecidableEq, Repr

/-- The worksheet `init_sheet` returns as write target. -/
inductive WriteTarget where
  | defaultSheet
  | newSheet (title : String) (rows cols : Nat) (contents : List (List String))
deriving DecidableEq, Repr

/-- The worksheet-selection step of `init_sheet` (lines 119-132): if
`sheet1.get_all_values()` is non-empty, add a worksheet named
`runs_<timestamp>` with `rows=min(1000, sheet1.row_count)`,
`cols=min(50, sheet1.col_count)`, append `sheet1.row_values(1)` to it when
that row is non-empty, and use it; otherwise use `sheet1` itself.
`nowStr` is `datetime.now().strftime('%Y%m%d_%H%M%S')`. -/
def select_worksheet (sheet1 : Sheet1) (nowStr : String) : WriteTarget :=
  if sheet1.values.length > 0 then
    let new_sheet_name := "runs_" ++ nowStr
    let header_row := sheet1.values.headD []
    .newSheet new_sheet_name (min 1000 sheet1.row_count)
      (min 50 sheet1.col_count)
      (if header_row ≠ [] then [header_row] else [])
  else
    .defaultSheet

/-- `sync_data` (lines 196-203): `if new_rows:` append them in one
`append_rows` call (then sleep).  Returns the worksheet's value grid after
the call and the number of `append_rows` calls made. -/
def sync_data (sheet : List (List String)) (new_rows : List (List String)) :
    List (List String) × Nat :=
  if new_rows ≠ [] then (sheet ++ new_rows, 1) else (sheet, 0)

/-- The externally visible calls a run of `main` (lines 206-227) makes, in
order, plus the startup `load_config` call of the `__main__` block. -/
inductive Effect where
  | loadConfig
  | initSheet
  | fetchRuns
  | readSheetValues
  | appendRows
deriving DecidableEq, Repr

/-- The calls of one successful `main` cycle, in source order (lines
208-220): `load_config`, `init_sheet`, `api.runs`,
`sheet.get_all_values`, then `sync_data`'s `append_rows` only when
`new_rows` is non-empty. -/
def mainEffects (hasNewRows : Bool) : List Effect :=
  [.loadConfig, .initSheet, .fetchRuns, .readSheetValues] ++
    (if hasNewRows then [.appendRows] else [])

/-- The `__main__` block (lines 229-238) calls `load_config` once before
scheduling begins. -/
def startupEffects : List Effect := [.loadConfig]

/-- The call trace after the startup block and a sequence of completed
`main` cycles (one `Bool` per cycle: whether that cycle had new rows).
The scheduler re-runs the whole of `main` on every tick. -/
def schedulerTrace (cycles : List Bool) : List Effect :=
  startupEffects ++ (cycles.map mainEffects).flatten

/-- What one iteration of the `while True` loop (lines 240-249) observes:
`run_pending()` and the sleep complete normally, or an `Exception` escapes
the cycle, or a `KeyboardInterrupt` arrives. -/
inductive Tick where
  | ok
  | exc : String → Tick
  | interrupt
deriving DecidableEq, Repr

/-- Whether the loop is still running or has exited after consuming a tick
sequence. -/
inductive LoopResult where
  | running
  | stoppedClean
deriving DecidableEq, Repr

/-- The scheduler loop (lines 240-249) over a finite tick sequence:
`except KeyboardInterrupt` logs and `break`s (a clean exit);
`except Exception` logs `"Unexpected error: ..."`, sleeps, and continues.
Returns the log entries the handlers write and the loop's state. -/
def scheduler_loop (ticks : List Tick) : List String × LoopResult :=
  match ticks with
  | [] => ([], .running)
  | .ok :: rest => scheduler_loop rest
  | .exc msg :: rest =>
    let r := scheduler_loop rest
    (("Unexpected error: " ++ msg) :: r.1, r.2)
  | .interrupt :: _ => (["Sync process stopped by user"], .stoppedClean)

/-- An arbitrary Python object held in a run's mappings, for the
totality analysis: `str(obj)` may raise (custom `__str__`), and
`datetime.fromtimestamp(obj)` either yields an integral epoch or raises. -/
structure PyObj where
  strRepr : Except String String
  epochVal : Except String Int

/-- A run whose attribute and mapping accesses may themselves raise, as
happens with lazy remote `config` / `summary` objects: each operation the
helpers perform (`key in m`, `m[key]`) is an `Except`. -/
structure FRun where
  configContains : String → Except String Bool
  configItem : String → Except String PyObj
  summaryContains : String → Except String Bool
  summaryItem : String → Except String PyObj

/-- The `try` body of `get_timestamp` with fallible accesses:
`"_timestamp" in run.summary` is evaluated first; if present, the value is
fetched, `fromtimestamp` converts it (raising on non-numbers), and the
result is formatted. -/
def get_timestamp_try (tzOffset : Int) (run : FRun) : Except String String := do
  let present ← run.summaryContains "_timestamp"
  if present then
    let obj ← run.summaryItem "_timestamp"
    let t ← obj.epochVal
    pure (formatEpoch (t + tzOffset))
  else
    pure ""

/-- `get_timestamp` over fallible runs: the `except Exception` clause maps
every raised error to `""`. -/
def get_timestamp_total (tzOffset : Int) (run : FRun) : String :=
  match get_timestamp_try tzOffset run with
  | .ok s => s
  | .error _ => ""

/-- The `try` body of `get_run_value` with fallible accesses, in source
order: `key in run.config`, `str(run.config[key])`, `key in run.summary`,
`str(run.summary[key])`, else `""`. -/
def get_run_value_try (run : FRun) (key : String) : Except String String := do
  if (← run.configContains key) then
    let obj ← run.configItem key
    obj.strRepr
  else if (← run.summaryContains key) then
    let obj ← run.summaryItem key
    obj.strRepr
  else
    pure ""

/-- `get_run_value` over fallible runs: the `except Exception` clause maps
every raised error to `""`. -/
def get_run_value_total (run : FRun) (key : String) : String :=
  match get_run_value_try run key with
  | .ok s => s
  | .error _ => ""

/-- A run whose every mapping access raises, as when the lazy remote
objects hit a connection error. -/
def failingRun : FRun where
  configContains := fun _ => .error "ConnectionError"
  configItem := fun _ => .error "ConnectionError"
  summaryContains := fun _ => .error "ConnectionError"
  summaryItem := fun _ => .error "ConnectionError"

/-- Sample runs for concrete evaluations. -/
def runA : Run := ⟨"run-a", "running", "alice", [], []⟩

def runB : Run := ⟨"run-b", "finished", "alice", [], []⟩

def runC : Run :=
  ⟨"run-1", "running", "alice", [("accuracy", .float "0.91")],
    [("_timestamp", .int 1700000000)]⟩

/- ## Helper lemmas -/

lemma process_runs_eq_filter_map (tz : Int) (runs : List Run)
    (S H : List String) (U : String) :
    process_runs tz runs S H U
      = (runs.filter (qualifies S U)).map (buildRow tz H) := by
  induction runs with
  | nil => rfl
  | cons r rest ih =>
    by_cases h1 : r.state = "running" ∧ r.id ∉ S
    · by_cases h2 : r.userName = U
      · simp [process_runs, qualifies, List.filter_cons, h1, h2, ih]
      · simp [process_runs, qualifies, List.filter_cons, h1, h2, ih]
    · simp [process_runs, qualifies, List.filter_cons, h1, ih]

lemma qualifies_iff (S : List String) (U : String) (r : Run) :
    qualifies S U r = true
      ↔ (r.state = "running" ∧ r.id ∉ S ∧ r.userName = U) := by
  simp [qualifies, and_assoc]

lemma foldl_min_spec (acc : Worksheet) (rest : List Worksheet) :
    (rest.foldl (fun a x => if x.title < a.title then x else a) acc = acc
      ∨ rest.foldl (fun a x => if x.title < a.title then x else a) acc ∈ rest)
    ∧ (rest.foldl (fun a x => if x.title < a.title then x else a) acc).title
        ≤ acc.title
    ∧ ∀ x ∈ rest,
        (rest.foldl (fun a x => if x.title < a.title then x else a) acc).title
          ≤ x.title := by
  induction rest generalizing acc with
  | nil => exact ⟨Or.inl rfl, le_refl _, by simp⟩
  | cons y ys ih =>
    simp only [List.foldl_cons]
    by_cases h : y.title < acc.title
    · simp only [if_pos h]
      obtain ⟨hmem, hle, hall⟩ := ih y
      refine ⟨?_, le_trans hle (le_of_lt h), ?_⟩
      · rcases hmem with h1 | h1
        · exact Or.inr (by rw [h1]; exact List.mem_cons_self _ _)
        · exact Or.inr (List.mem_cons_of_mem _ h1)
      · intro x hx
        rcases List.mem_cons.mp hx with rfl | hx
        · exact hle
        · exact hall x hx
    · simp only [if_neg h]
      obtain ⟨hmem, hle, hall⟩ := ih acc
      refine ⟨?_, hle, ?_⟩
      · rcases hmem with h1 | h1
        · exact Or.inl h1
        · exact Or.inr (List.mem_cons_of_mem _ h1)
      · intro x hx
        rcases List.mem_cons.mp hx with rfl | hx
        · exact le_trans hle (not_lt.mp h)
        · exact hall x hx

lemma pyMinByTitle_mem_le (ws : List Worksheet) (w : Worksheet)
    (h : pyMinByTitle ws = some w) :
    w ∈ ws ∧ ∀ x ∈ ws, w.title ≤ x.title := by
  cases ws with
  | nil => cases h
  | cons a rest =>
    simp only [pyMinByTitle, Option.some.injEq] at h
    subst h
    obtain ⟨hmem, hle, hall⟩ := foldl_min_spec a rest
    constructor
    · rcases hmem with h1 | h1
      · rw [h1]; exact List.mem_cons_self _ _
      · exact List.mem_cons_of_mem _ h1
    · intro x hx
      rcases List.mem_cons.mp hx with rfl | hx
      · exact hle
      · exact hall x hx

/- ## Claims -/

/-- C1: `process_runs` outputs a row for a run `r` iff `r.state` is
`"running"`, `r.id` is not in the synced-id list, and `r.user.name` equals
the target user; inclusion is invariant under permutation of the fetched
list, and the output rows follow the iteration order of the fetched list
(the output is exactly the in-order filter of the fetched list, mapped
through the row builder). -/
theorem process_runs_filter_spec (tz : Int) (R : List Run)
    (S H : List String) (U : String) :
    process_runs tz R S H U = (R.filter (qualifies S U)).map (buildRow tz H)
    ∧ (∀ r, r ∈ R.filter (qualifies S U)
        ↔ (r ∈ R ∧ r.state = "running" ∧ r.id ∉ S ∧ r.userName = U))
    ∧ (∀ r ∈ R, r.state = "running" → r.id ∉ S → r.userName = U →
        buildRow tz H r ∈ process_runs tz R S H U)
    ∧ (∀ R', R.Perm R' →
        ∀ r, (r ∈ R.filter (qualifies S U) ↔ r ∈ R'.filter (qualifies S U))) := by
  have hmem : ∀ r, r ∈ R.filter (qualifies S U)
      ↔ (r ∈ R ∧ r.state = "running" ∧ r.id ∉ S ∧ r.userName = U) := by
    intro r
    rw [List.mem_filter, qualifies_iff]
  refine ⟨process_runs_eq_filter_map tz R S H U, hmem, ?_, ?_⟩
  · intro r hr hstate hid huser
    rw [process_runs_eq_filter_map]
    exact List.mem_map_of_mem _ ((hmem r).mpr ⟨hr, hstate, hid, huser⟩)
  · intro R' hperm r
    exact (hperm.filter _).mem_iff

theorem process_runs_filter_spec_witness :
    runA ∈ List.filter (qualifies ["x"] "alice") [runA, runB]
      ↔ runA ∈ List.filter (qualifies ["x"] "alice") [runB, runA] :=
  (process_runs_filter_spec 0 [runA, runB] ["x"] ["id", "ts", "user"]
    "alice").2.2.2 [runB, runA] (List.Perm.swap runB runA []) runA

/-- C2 counterexample: with fewer than three headers the built row does
not have the header list's length — for the empty header list the row
still has its three fixed columns, so its length is 3, not 0.  (In
Python, `final_headers[3:]` on a short list is simply empty.) -/
theorem buildRow_short_headers_counterexample :
    (buildRow 0 ([] : List String) runA).length
      ≠ List.length ([] : List String) := by decide

/-- C2 (amended): the built row's length is `max 3 H.length` — equal to
the header count whenever the header list has at least its three reserved
columns; columns 0-2 are always `[run id, formatted timestamp or empty,
user name]`; and every cell beyond the first three holds the stringified
config value for its header if present, else the stringified summary
value, else the empty string. -/
theorem buildRow_row_spec (tz : Int) (H : List String) (r : Run) :
    (buildRow tz H r).length = max 3 H.length
    ∧ (buildRow tz H r).take 3 = [r.id, get_timestamp tz r, r.userName]
    ∧ (∀ i k, 3 ≤ i → H.get? i = some k →
        (buildRow tz H r).get? i = some (get_run_value r k))
    ∧ (∀ k,
        (∀ v, r.config.lookup k = some v → get_run_value r k = pyStr v)
        ∧ (r.config.lookup k = none →
            ∀ v, r.summary.lookup k = some v → get_run_value r k = pyStr v)
        ∧ (r.config.lookup k = none → r.summary.lookup k = none →
            get_run_value r k = "")) := by
  refine ⟨?_, rfl, ?_, ?_⟩
  · simp only [buildRow, List.length_append, List.length_map,
      List.length_drop, List.length_cons, List.length_nil]
    omega
  · intro i k h3 hk
    have hrw : (buildRow tz H r).get? i
        = ((H.drop 3).map (get_run_value r)).get? (i - 3) := by
      simp only [buildRow]
      rw [List.get?_append_right (by simp; omega)]
      simp
    rw [hrw, List.get?_map, List.get?_drop]
    have h33 : 3 + (i - 3) = i := by omega
    rw [h33, hk]
    rfl
  · intro k
    refine ⟨?_, ?_, ?_⟩
    · intro v hv
      simp [get_run_value, hv]
    · intro hnone v hv
      simp [get_run_value, hnone, hv]
    · intro h1 h2
      simp [get_run_value, h1, h2]

theorem buildRow_row_spec_witness :
    (buildRow 0 ["id", "ts", "user", "accuracy"] runC).get? 3
      = some (get_run_value runC "accuracy") :=
  (buildRow_row_spec 0 ["id", "ts", "user", "accuracy"] runC).2.2.1
    3 "accuracy" (by decide) rfl

/-- C3: the code checks only `GCP_JSON` and `FIXED_HEADERS`; a config
missing `TEAM_NAME` (or `PROJECT_NAME`) makes `config['TEAM_NAME']` raise
a plain `KeyError`, which the dead `except ConfigError` clause cannot
catch — the failure escapes outside the script's configuration-error
category, contradicting the intended (and spec-stated) behavior. -/
theorem load_config_missing_team_name_keyError :
    load_config (.parsed
      [("GCP_JSON", .str "gcp.json"),
       ("FIXED_HEADERS", .strList ["id", "ts", "user"])])
      = .error (.keyError "TEAM_NAME") := by rfl

/-- C4: when no fetched run qualifies, the differ output is empty and
`sync_data` performs zero `append_rows` calls, leaving the sheet
unchanged. -/
theorem sync_no_qualifying_noop (tz : Int) (R : List Run)
    (S H : List String) (U : String) (sheet : List (List String))
    (hnone : ∀ r ∈ R, ¬(r.state = "running" ∧ r.id ∉ S ∧ r.userName = U)) :
    process_runs tz R S H U = []
    ∧ sync_data sheet (process_runs tz R S H U) = (sheet, 0) := by
  have hfilter : R.filter (qualifies S U) = [] := by
    rw [List.filter_eq_nil]
    intro r hr
    rw [qualifies_iff]
    exact hnone r hr
  have h1 : process_runs tz R S H U = [] := by
    rw [process_runs_eq_filter_map, hfilter]
    rfl
  rw [h1]
  exact ⟨rfl, rfl⟩

theorem sync_no_qualifying_noop_witness :
    process_runs 0 [runB] [] ["id", "ts", "user"] "alice" = []
    ∧ sync_data [["id"]] (process_runs 0 [runB] [] ["id", "ts", "user"] "alice")
        = ([["id"]], 0) :=
  sync_no_qualifying_noop 0 [runB] [] ["id", "ts", "user"] "alice" [["id"]]
    (by decide)

/-- A spreadsheet whose 100 worksheets all have `runs_`-prefixed titles. -/
def wsAllRuns : List Worksheet :=
  (List.range 100).map fun i => ⟨"runs_" ++ toString i, i⟩

/-- A spreadsheet with 100 worksheets, exactly one of which (`"alpha"`)
has a title not starting with `runs_`. -/
def wsWithPlain : List Worksheet :=
  ⟨"alpha", 100⟩ :: (List.range 99).map fun i => ⟨"runs_" ++ toString i, i⟩

/-- C5 counterexample: with 100 worksheets whose titles all start with
`runs_`, no worksheet is deleted — `min()` receives an empty generator,
raises `ValueError`, and initialization fails with a `SheetError` instead
of the claimed single deletion. -/
theorem enforce_sheet_limit_counterexample :
    enforce_sheet_limit wsAllRuns
      = .error (.sheetError
          "Failed to initialize sheet: min() arg is an empty sequence") := by
  rfl

/-- C5 (amended): with fewer than 100 worksheets nothing is deleted; with
100 or more worksheets *and at least one title not starting with `runs_`*,
exactly one worksheet is deleted — one whose title does not start with
`runs_` and is lexicographically least among those.  (When every title
starts with `runs_`, `min()` raises and initialization fails with a
`SheetError`.) -/
theorem enforce_sheet_limit_spec (ws : List Worksheet) :
    (ws.length < 100 → enforce_sheet_limit ws = .ok none)
    ∧ (100 ≤ ws.length →
        (∃ w ∈ ws, pyStartsWith w.title "runs_" = false) →
        ∃ oldest, enforce_sheet_limit ws = .ok (some oldest)
          ∧ oldest ∈ ws
          ∧ pyStartsWith oldest.title "runs_" = false
          ∧ ∀ x ∈ ws, pyStartsWith x.title "runs_" = false →
              oldest.title ≤ x.title) := by
  constructor
  · intro h
    unfold enforce_sheet_limit
    rw [if_neg (by omega)]
  · intro h100 hex
    obtain ⟨w, hw, hws⟩ := hex
    have hwfl : w ∈ ws.filter fun s => !(pyStartsWith s.title "runs_") :=
      List.mem_filter.mpr ⟨hw, by simp [hws]⟩
    obtain ⟨m, hm⟩ :
        ∃ m, pyMinByTitle (ws.filter fun s => !(pyStartsWith s.title "runs_"))
          = some m := by
      cases hfl : ws.filter fun s => !(pyStartsWith s.title "runs_") with
      | nil => rw [hfl] at hwfl; cases hwfl
      | cons a r => exact ⟨_, rfl⟩
    obtain ⟨hmem, hall⟩ := pyMinByTitle_mem_le _ m hm
    refine ⟨m, ?_, (List.mem_filter.mp hmem).1, ?_, ?_⟩
    · unfold enforce_sheet_limit
      rw [if_pos h100, hm]
    · have := (List.mem_filter.mp hmem).2
      simpa using this
    · intro x hx hxs
      exact hall x (List.mem_filter.mpr ⟨hx, by simp [hxs]⟩)

theorem enforce_sheet_limit_spec_witness :
    ∃ oldest, enforce_sheet_limit wsWithPlain = .ok (some oldest)
      ∧ oldest ∈ wsWithPlain
      ∧ pyStartsWith oldest.title "runs_" = false
      ∧ ∀ x ∈ wsWithPlain, pyStartsWith x.title "runs_" = false →
          oldest.title ≤ x.title :=
  (enforce_sheet_limit_spec wsWithPlain).2
    (by simp [wsWithPlain])
    ⟨⟨"alpha", 100⟩, by simp [wsWithPlain], by decide⟩

/-- C6 counterexample: the scheduler runs the whole of `main` every tick,
and `main` itself calls `load_config` and `init_sheet` — so after two
completed cycles the configuration has been loaded three times (startup
plus one per cycle) and the worksheet handle created twice, not once as
claimed. -/
theorem schedulerTrace_reload_counterexample :
    (schedulerTrace [true, true]).count .loadConfig = 3
    ∧ (schedulerTrace [true, true]).count .initSheet = 2 := by decide

/-- C6 (amended): the configuration is loaded once at startup *and again
by every cycle*, and the worksheet handle is created anew by every cycle
(each cycle's `init_sheet` may create another rotated worksheet): after
`n` completed cycles the trace holds `n + 1` `load_config` calls and `n`
`init_sheet` calls. -/
theorem schedulerTrace_counts (cycles : List Bool) :
    (schedulerTrace cycles).count .loadConfig = cycles.length + 1
    ∧ (schedulerTrace cycles).count .initSheet = cycles.length := by
  induction cycles with
  | nil => decide
  | cons c rest ih =>
    obtain ⟨ih1, ih2⟩ := ih
    simp only [schedulerTrace, startupEffects, List.map_cons,
      List.flatten_cons, List.count_append, List.count_cons] at ih1 ih2 ⊢
    cases c <;>
      simp_all [mainEffects, List.count_append, List.count_cons,
        List.count_nil] <;> omega

/-- C7: if the default worksheet has any row content, the write target is
a fresh worksheet named `runs_<timestamp>`, sized
`min 1000 row_count × min 50 col_count`, holding the default sheet's
first row exactly when that row is non-empty; otherwise the default
worksheet itself is the write target. -/
theorem select_worksheet_spec (sheet1 : Sheet1) (nowStr : String) :
    (sheet1.values = [] → select_worksheet sheet1 nowStr = .defaultSheet)
    ∧ (∀ hd rest, sheet1.values = hd :: rest →
        ∃ contents,
          select_worksheet sheet1 nowStr
            = .newSheet ("runs_" ++ nowStr) (min 1000 sheet1.row_count)
                (min 50 sheet1.col_count) contents
          ∧ (hd ≠ [] → contents = [hd])
          ∧ (hd = [] → contents = [])) := by
  constructor
  · intro h
    unfold select_worksheet
    rw [h]
    rfl
  · intro hd rest h
    refine ⟨if hd ≠ [] then [hd] else [], ?_, ?_, ?_⟩
    · unfold select_worksheet
      rw [h]
      simp
    · intro hne
      simp [hne]
    · intro he
      simp [he]

theorem select_worksheet_spec_witness :
    ∃ contents,
      select_worksheet ⟨[["id", "ts"]], 200, 26⟩ "20251012_000000"
        = .newSheet ("runs_" ++ "20251012_000000") (min 1000 200) (min 50 26)
            contents
      ∧ (["id", "ts"] ≠ [] → contents = [["id", "ts"]])
      ∧ (["id", "ts"] = [] → contents = []) :=
  (select_worksheet_spec ⟨[["id", "ts"]], 200, 26⟩ "20251012_000000").2
    ["id", "ts"] [] rfl

/-- C8: the scheduler loop exits (cleanly) exactly when a
`KeyboardInterrupt` tick occurs; an `Exception` escaping a cycle is
caught and logged, and leaves the loop's fate exactly as it would have
been without that tick — the loop never crashes or exits because of a
cycle error. -/
theorem scheduler_loop_spec :
    (∀ ticks : List Tick,
      ((scheduler_loop ticks).2 = .stoppedClean ↔ .interrupt ∈ ticks))
    ∧ (∀ pre msg rest, .interrupt ∉ pre →
        ("Unexpected error: " ++ msg)
            ∈ (scheduler_loop (pre ++ .exc msg :: rest)).1
        ∧ (scheduler_loop (pre ++ .exc msg :: rest)).2
            = (scheduler_loop (pre ++ rest)).2) := by
  constructor
  · intro ticks
    induction ticks with
    | nil => simp [scheduler_loop]
    | cons t rest ih =>
      cases t with
      | ok => simpa [scheduler_loop] using ih
      | exc msg => simpa [scheduler_loop] using ih
      | interrupt => simp [scheduler_loop]
  · intro pre msg rest
    induction pre with
    | nil =>
      intro _
      constructor
      · simp [scheduler_loop]
      · simp [scheduler_loop]
    | cons t pre ih =>
      intro hpre
      have hpre2 : Tick.interrupt ∉ pre := fun h =>
        hpre (List.mem_cons_of_mem _ h)
      have ht : t ≠ .interrupt := fun h =>
        hpre (h ▸ List.mem_cons_self _ _)
      obtain ⟨h1, h2⟩ := ih hpre2
      cases t with
      | ok =>
        exact ⟨by simpa [scheduler_loop] using h1,
          by simpa [scheduler_loop] using h2⟩
      | exc m =>
        constructor
        · simp only [List.cons_append, scheduler_loop]
          exact List.mem_cons_of_mem _ h1
        · simpa [scheduler_loop] using h2
      | interrupt => exact absurd rfl ht

theorem scheduler_loop_spec_witness :
    ("Unexpected error: " ++ "boom")
        ∈ (scheduler_loop ([.ok] ++ .exc "boom" :: [.interrupt])).1
    ∧ (scheduler_loop ([.ok] ++ .exc "boom" :: [.interrupt])).2
        = (scheduler_loop ([.ok] ++ [.interrupt])).2 :=
  scheduler_loop_spec.2 [.ok] "boom" [.interrupt] (by decide)

/-- C9 counterexample: `datetime.fromtimestamp` converts to *local* time,
so the formatted timestamp is not determined by the epoch alone — in a
UTC+9 environment (e.g. Asia/Seoul) the same qualifying run yields
`"2023-11-15 07:13:20"` in the timestamp column, not the claimed
`"2023-11-14 22:13:20"`. -/
theorem process_runs_timezone_counterexample :
    process_runs 32400 [runC] [] ["id", "ts", "user", "accuracy"] "alice"
      = [["run-1", "2023-11-15 07:13:20", "alice", "0.91"]]
    ∧ ("2023-11-15 07:13:20" : String) ≠ "2023-11-14 22:13:20" := by
  exact ⟨rfl, by decide⟩

/-- C9 (amended): the timestamp is deterministic from the epoch *and the
local timezone offset*; in a UTC environment the example run (state
`"running"`, matching user, id not synced, config `accuracy = 0.91`,
summary `_timestamp = 1700000000`) yields exactly the row
`["run-1", "2023-11-14 22:13:20", "alice", "0.91"]`, and the timestamp
column is the empty string when `_timestamp` is absent. -/
theorem process_runs_example_utc :
    process_runs 0 [runC] [] ["id", "ts", "user", "accuracy"] "alice"
      = [["run-1", "2023-11-14 22:13:20", "alice", "0.91"]]
    ∧ get_timestamp 0
        ⟨"run-1", "running", "alice", [("accuracy", .float "0.91")], []⟩
        = "" := by
  exact ⟨rfl, rfl⟩

/-- C10: `get_timestamp` and `get_run_value` are total: whatever the run
object does, they return the `try` body's string when it succeeds and the
empty string when any internal step raises — no exception propagates (the
functions are total by construction); a run whose every access raises
yields `""` from both. -/
theorem helpers_total_spec :
    ∀ (tz : Int) (run : FRun) (key : String),
      ((∃ s, get_timestamp_try tz run = .ok s
          ∧ get_timestamp_total tz run = s)
        ∨ (∃ e, get_timestamp_try tz run = .error e
            ∧ get_timestamp_total tz run = ""))
      ∧ ((∃ s, get_run_value_try run key = .ok s
            ∧ get_run_value_total run key = s)
        ∨ (∃ e, get_run_value_try run key = .error e
            ∧ get_run_value_total run key = ""))
      ∧ get_timestamp_total tz failingRun = ""
      ∧ get_run_value_total failingRun key = "" := by
  intro tz run key
  refine ⟨?_, ?_, rfl, rfl⟩
  · cases h : get_timestamp_try tz run with
    | ok s => exact Or.inl ⟨s, rfl, by simp [get_timestamp_total, h]⟩
    | error e => exact Or.inr ⟨e, rfl, by simp [get_timestamp_total, h]⟩
  · cases h : get_run_value_try run key with
    | ok s => exact Or.inl ⟨s, rfl, by simp [get_run_value_total, h]⟩
    | error e => exact Or.inr ⟨e, rfl, by simp [get_run_value_total, h]⟩
